import Mathlib

/-!
Shallow embedding of `src/exif.rs` (photo-organizer): a minimal EXIF
reader/writer for the APP1 segment of a JPEG byte buffer.

Byte buffers are `List Nat` (each element one byte value).  Rust slice
indexing panics when out of bounds; panics are made explicit with the
`RRes` result type (`RRes.panic` is a Rust panic, `RRes.ok` a normal
return).  A Rust borrowed sub-slice `&buf[a..b]` is represented either by
its contents (`rustSlice`) or, for `read_tag`, by the pair
(start offset, length) inside the APP1 buffer — which is exactly the
information the Rust slice (pointer, length) carries, and what
`clear_orientation` recovers by pointer arithmetic in the source.
-/

/-- Result of a Rust computation: a value, or a panic (out-of-bounds index,
`unwrap` on `None`, `copy_from_slice` length mismatch …). -/
inductive RRes (α : Type) where
  | ok (a : α)
  | panic
deriving DecidableEq, Repr

/-- Byte order of the TIFF block, from `enum ByteOrder` in the source. -/
inductive ByteOrder where
  | BigEndian
  | LittleEndian
deriving DecidableEq, Repr

/-- `const OFFSET_TIFF_HEADER: usize = 10` — start of the TIFF header inside APP1. -/
def OFFSET_TIFF_HEADER : Nat := 10

/-- Tag id `0x0112` (Orientation). -/
def ORIENTATION : Nat := 0x0112

/-- Tag id `0x8769` (Exif IFD pointer). -/
def EXIF_IFD_POINTER : Nat := 0x8769

/-- Tag id `0x9003` (DateTimeOriginal). -/
def DATE_TIME_ORIGINAL : Nat := 0x9003

/-- Contents of the Rust sub-slice of `l` starting at `s` with length `n`
(when in bounds). -/
def sliceAt (l : List Nat) (s n : Nat) : List Nat :=
  (l.drop s).take n

/-- Rust slice expression `&l[a..b]`: panics unless `a ≤ b ≤ l.length`. -/
def rustSlice (l : List Nat) (a b : Nat) : RRes (List Nat) :=
  if a ≤ b ∧ b ≤ l.length then .ok (sliceAt l a (b - a)) else .panic

/-- `decode_u16`: decode a 2-byte slice as u16 per byte order; panics when
the slice length is not 2 (`copy_from_slice`). -/
def decode_u16 (s : List Nat) (bo : ByteOrder) : RRes Nat :=
  match s, bo with
  | [a, b], .BigEndian => .ok (a * 256 + b)
  | [a, b], .LittleEndian => .ok (b * 256 + a)
  | _, _ => .panic

/-- `decode_u32`: decode a 4-byte slice as u32 per byte order; panics when
the slice length is not 4 (`copy_from_slice`). -/
def decode_u32 (s : List Nat) (bo : ByteOrder) : RRes Nat :=
  match s, bo with
  | [a, b, c, d], .BigEndian => .ok (((a * 256 + b) * 256 + c) * 256 + d)
  | [a, b, c, d], .LittleEndian => .ok (((d * 256 + c) * 256 + b) * 256 + a)
  | _, _ => .panic

/-- Big-endian 16-bit byte pair of a tag id (`u16::to_be_bytes` /
`to_le_bytes` in `read_tag`). -/
def tag_bytes (tag : Nat) (bo : ByteOrder) : List Nat :=
  match bo with
  | .BigEndian => [tag / 256 % 256, tag % 256]
  | .LittleEndian => [tag % 256, tag / 256 % 256]

/-- Byte width per declared value type: 2 = ASCII → 1, 3 = SHORT → 2,
4 = LONG → 4; any other type is unsupported (the Rust `match` arm
`_ => return None`). -/
def width : Nat → Option Nat
  | 2 => some 1
  | 3 => some 2
  | 4 => some 4
  | _ => none

/-- Loop body of `next_app0_index` (`for i in 2..(len - 1)`), fuel = number
of remaining iterations.  Falling out of the loop leaves `next_app0 = 2`. -/
def next_app0_loop (buf : List Nat) (i : Nat) : Nat → RRes Nat
  | 0 => .ok 2
  | fuel + 1 =>
    match rustSlice buf i (i + 2) with
    | .panic => .panic
    | .ok m =>
      if m = [0xFF, 0xE0] then
        match rustSlice buf (i + 2) (i + 4) with
        | .panic => .panic
        | .ok lb =>
          match decode_u16 lb .BigEndian with
          | .panic => .panic
          | .ok L =>
            match rustSlice buf (i + 4) (i + 9) with
            | .panic => .panic
            | .ok idb =>
              if idb = [0x4A, 0x46, 0x49, 0x46, 0x00] then
                .ok (i + L + 2)
              else next_app0_loop buf (i + 1) fuel
      else next_app0_loop buf (i + 1) fuel

/-- Error string of `next_app0_index`. -/
def soiErr : String := "SOI marker does not exist."

instance (ε α : Type) [DecidableEq ε] [DecidableEq α] :
    DecidableEq (Except ε α) := fun x y =>
  match x, y with
  | .ok a, .ok b =>
    if h : a = b then isTrue (by rw [h])
    else isFalse (by intro hh; cases hh; exact h rfl)
  | .error a, .error b =>
    if h : a = b then isTrue (by rw [h])
    else isFalse (by intro hh; cases hh; exact h rfl)
  | .ok _, .error _ => isFalse (by intro hh; cases hh)
  | .error _, .ok _ => isFalse (by intro hh; cases hh)

/-- `next_app0_index`: index of the first byte after the APP0/JFIF segment
(or 2 when none exists); `Err` when the buffer does not start with SOI. -/
def next_app0_index (buf : List Nat) : RRes (Except String Nat) :=
  match rustSlice buf 0 2 with
  | .panic => .panic
  | .ok soi =>
    if soi = [0xFF, 0xD8] then
      match next_app0_loop buf 2 (buf.length - 1 - 2) with
      | .panic => .panic
      | .ok r => .ok (.ok r)
    else .ok (.error soiErr)

/-- Loop body of `get_app1` (`for i in 0..(len - 1)`). -/
def get_app1_loop (buf : List Nat) (i : Nat) : Nat → RRes (Option (List Nat))
  | 0 => .ok none
  | fuel + 1 =>
    match rustSlice buf i (i + 2) with
    | .panic => .panic
    | .ok m =>
      if m = [0xFF, 0xE1] then
        match rustSlice buf (i + 2) (i + 4) with
        | .panic => .panic
        | .ok lb =>
          match decode_u16 lb .BigEndian with
          | .panic => .panic
          | .ok L =>
            match rustSlice buf (i + 4) (i + 9) with
            | .panic => .panic
            | .ok idb =>
              if idb = [0x45, 0x78, 0x69, 0x66, 0x00] then
                match rustSlice buf i (i + L + 2) with
                | .panic => .panic
                | .ok seg => .ok (some seg)
              else get_app1_loop buf (i + 1) fuel
      else get_app1_loop buf (i + 1) fuel

/-- `get_app1`: the EXIF APP1 segment of a JPEG buffer (marker included),
or `none`.  An empty buffer panics (`len - 1` underflow / first index). -/
def get_app1 (buf : List Nat) : RRes (Option (List Nat)) :=
  if buf.length = 0 then .panic
  else get_app1_loop buf 0 (buf.length - 1)

/-- Processing of a matched IFD entry at offset `tfo` in `read_tag`:
decode type and count, then return the value region (start, length) —
inline when `value_bytes ≤ 4`, through the 4-byte offset otherwise. -/
def read_tag_entry (app1 : List Nat) (tfo : Nat) (bo : ByteOrder) :
    RRes (Option (Nat × Nat)) :=
  match rustSlice app1 (tfo + 2) (tfo + 4) with
  | .panic => .panic
  | .ok vts =>
    match decode_u16 vts bo with
    | .panic => .panic
    | .ok vt =>
      match rustSlice app1 (tfo + 4) (tfo + 8) with
      | .panic => .panic
      | .ok cs =>
        match decode_u32 cs bo with
        | .panic => .panic
        | .ok count =>
          match width vt with
          | none => .ok none
          | some w =>
            let vb := w * count
            if vb ≤ 4 then
              match rustSlice app1 (tfo + 8) (tfo + 8 + vb) with
              | .panic => .panic
              | .ok _ => .ok (some (tfo + 8, vb))
            else
              match rustSlice app1 (tfo + 8) (tfo + 12) with
              | .panic => .panic
              | .ok vos =>
                match decode_u32 vos bo with
                | .panic => .panic
                | .ok vo =>
                  match rustSlice app1 (OFFSET_TIFF_HEADER + vo)
                      (OFFSET_TIFF_HEADER + vo + vb) with
                  | .panic => .panic
                  | .ok _ => .ok (some (OFFSET_TIFF_HEADER + vo, vb))

/-- Scan loop of `read_tag` over `tag_num` 12-byte entries starting at
`tfo`, returning at the first entry whose tag bytes equal `tb`. -/
def read_tag_loop (app1 : List Nat) (tb : List Nat) (bo : ByteOrder)
    (tfo : Nat) : Nat → RRes (Option (Nat × Nat))
  | 0 => .ok none
  | n + 1 =>
    match rustSlice app1 tfo (tfo + 2) with
    | .panic => .panic
    | .ok t =>
      if t = tb then read_tag_entry app1 tfo bo
      else read_tag_loop app1 tb bo (tfo + 12) n

/-- `read_tag`: value region (start, length) of tag `tag` in the IFD at
`ifd_offset` (relative to the TIFF header start), or `none`. -/
def read_tag (app1 : List Nat) (ifd_offset tag : Nat) (bo : ByteOrder) :
    RRes (Option (Nat × Nat)) :=
  match rustSlice app1 (OFFSET_TIFF_HEADER + ifd_offset)
      (OFFSET_TIFF_HEADER + ifd_offset + 2) with
  | .panic => .panic
  | .ok cb =>
    match decode_u16 cb bo with
    | .panic => .panic
    | .ok tag_num =>
      read_tag_loop app1 (tag_bytes tag bo) bo
        (OFFSET_TIFF_HEADER + ifd_offset + 2) tag_num

/-- Byte-order detection shared by `clear_orientation`,
`get_date_time_original` and `get_orientation`: bytes 10..12 equal
`4D 4D` → big endian, anything else → little endian. -/
def detect_byte_order (app1 : List Nat) : RRes ByteOrder :=
  match rustSlice app1 OFFSET_TIFF_HEADER (OFFSET_TIFF_HEADER + 2) with
  | .panic => .panic
  | .ok s => if s = [0x4D, 0x4D] then .ok .BigEndian else .ok .LittleEndian

/-- Read of the 0th IFD offset at bytes 14..18 of APP1, shared by the same
three functions. -/
def read_ifd0_offset (app1 : List Nat) (bo : ByteOrder) : RRes Nat :=
  match rustSlice app1 (OFFSET_TIFF_HEADER + 4) (OFFSET_TIFF_HEADER + 8) with
  | .panic => .panic
  | .ok s => decode_u32 s bo

/-- Two-byte in-place write `app1[s] = a; app1[s+1] = b`. -/
def write2 (l : List Nat) (s a b : Nat) : List Nat :=
  (l.set s a).set (s + 1) b

/-- First byte written by `clear_orientation` (`1u16.to_be_bytes()` /
`to_le_bytes()`). -/
def ori_b0 : ByteOrder → Nat
  | .BigEndian => 0
  | .LittleEndian => 1

/-- Second byte written by `clear_orientation`. -/
def ori_b1 : ByteOrder → Nat
  | .BigEndian => 1
  | .LittleEndian => 0

/-- `clear_orientation`: owned copy of the APP1 segment with the
Orientation value overwritten by the encoding of 1; `unwrap` panics when
no APP1 segment exists. -/
def clear_orientation (jpeg : List Nat) : RRes (List Nat) :=
  match get_app1 jpeg with
  | .panic => .panic
  | .ok none => .panic
  | .ok (some app1) =>
    match detect_byte_order app1 with
    | .panic => .panic
    | .ok bo =>
      match read_ifd0_offset app1 bo with
      | .panic => .panic
      | .ok off0 =>
        match read_tag app1 off0 ORIENTATION bo with
        | .panic => .panic
        | .ok none => .ok app1
        | .ok (some (s, _)) =>
          if s < app1.length then
            if s + 1 < app1.length then
              .ok (write2 app1 s (ori_b0 bo) (ori_b1 bo))
            else .panic
          else .panic

/-- `get_orientation`: decoded Orientation value in 1..8, `none` when the
segment or tag is absent or the value is 0 or above 8. -/
def get_orientation (jpeg : List Nat) : RRes (Option Nat) :=
  match get_app1 jpeg with
  | .panic => .panic
  | .ok none => .ok none
  | .ok (some app1) =>
    match detect_byte_order app1 with
    | .panic => .panic
    | .ok bo =>
      match read_ifd0_offset app1 bo with
      | .panic => .panic
      | .ok off0 =>
        match read_tag app1 off0 ORIENTATION bo with
        | .panic => .panic
        | .ok none => .ok none
        | .ok (some (s, l)) =>
          match decode_u16 (sliceAt app1 s l) bo with
          | .panic => .panic
          | .ok o => if o = 0 ∨ 8 < o then .ok none else .ok (some o)

/-- `get_date_time_original`: the 19 ASCII bytes of DateTimeOriginal
(trailing NUL dropped), reached through the Exif IFD pointer tag. -/
def get_date_time_original (jpeg : List Nat) : RRes (Option (List Nat)) :=
  match get_app1 jpeg with
  | .panic => .panic
  | .ok none => .ok none
  | .ok (some app1) =>
    match detect_byte_order app1 with
    | .panic => .panic
    | .ok bo =>
      match read_ifd0_offset app1 bo with
      | .panic => .panic
      | .ok off0 =>
        match read_tag app1 off0 EXIF_IFD_POINTER bo with
        | .panic => .panic
        | .ok none => .ok none
        | .ok (some (s, l)) =>
          match decode_u32 (sliceAt app1 s l) bo with
          | .panic => .panic
          | .ok exoff =>
            match read_tag app1 exoff DATE_TIME_ORIGINAL bo with
            | .panic => .panic
            | .ok none => .ok none
            | .ok (some (s2, l2)) =>
              let v := sliceAt app1 s2 l2
              if 19 ≤ v.length then .ok (some (v.take 19)) else .panic

/-- Concrete EXIF APP1 segment (big-endian TIFF block): segment length
0x54 (= 84, so 86 bytes with the marker), 0th IFD with an Orientation
entry storing `v` and an Exif IFD pointer, Exif IFD with a
DateTimeOriginal entry pointing at the 20-byte ASCII value
`2015:09:27 11:43:11` followed by NUL. -/
def demoApp1Val (v : Nat) : List Nat :=
  [0xFF, 0xE1, 0x00, 0x54,
   0x45, 0x78, 0x69, 0x66, 0x00, 0x00,
   0x4D, 0x4D, 0x00, 0x2A, 0x00, 0x00, 0x00, 0x08,
   0x00, 0x02,
   0x01, 0x12, 0x00, 0x03, 0x00, 0x00, 0x00, 0x01, 0x00, v, 0x00, 0x00,
   0x87, 0x69, 0x00, 0x04, 0x00, 0x00, 0x00, 0x01, 0x00, 0x00, 0x00, 0x26,
   0x00, 0x00, 0x00, 0x00,
   0x00, 0x01,
   0x90, 0x03, 0x00, 0x02, 0x00, 0x00, 0x00, 0x14, 0x00, 0x00, 0x00, 0x38,
   0x00, 0x00, 0x00, 0x00,
   0x32, 0x30, 0x31, 0x35, 0x3A, 0x30, 0x39, 0x3A, 0x32, 0x37, 0x20,
   0x31, 0x31, 0x3A, 0x34, 0x33, 0x3A, 0x31, 0x31, 0x00]

/-- The demo APP1 segment with Orientation value 6. -/
def demoApp1 : List Nat := demoApp1Val 6

/-- Complete demo JPEG: SOI, the APP1 segment storing Orientation `v`, EOI. -/
def demoJpegVal (v : Nat) : List Nat :=
  [0xFF, 0xD8] ++ demoApp1Val v ++ [0xFF, 0xD9]

/-- The demo JPEG with Orientation value 6. -/
def demoJpeg : List Nat := demoJpegVal 6

/-- Demo buffer that does not start with SOI but still contains the valid
EXIF APP1 segment. -/
def demoNoSoi : List Nat := [0x00, 0x00] ++ demoApp1 ++ [0xFF, 0xD9]

/-- APP1-shaped buffer whose single IFD holds two entries with the same
Orientation tag id: the first stores 3 inline, the second stores 7. -/
def dupTagBuf : List Nat :=
  [0, 0, 0, 0, 0, 0, 0, 0, 0, 0,
   0x00, 0x02,
   0x01, 0x12, 0x00, 0x03, 0x00, 0x00, 0x00, 0x01, 0x00, 0x03, 0x00, 0x00,
   0x01, 0x12, 0x00, 0x03, 0x00, 0x00, 0x00, 0x01, 0x00, 0x07, 0x00, 0x00]

/-- JPEG buffer with an APP0/JFIF segment of length 0x10 at offset 2. -/
def app0Buf : List Nat :=
  [0xFF, 0xD8, 0xFF, 0xE0, 0x00, 0x10, 0x4A, 0x46, 0x49, 0x46, 0x00,
   0, 0, 0, 0, 0, 0, 0, 0, 0, 0, 0]

lemma sliceAt_getElem? (l : List Nat) (s n i : Nat) :
    (sliceAt l s n)[i]? = if i < n then l[s + i]? else none := by
  unfold sliceAt
  by_cases h : i < n
  · rw [if_pos h, List.getElem?_take_of_lt h, List.getElem?_drop]
  · rw [if_neg h]
    refine List.getElem?_eq_none ?_
    have := List.length_take n (l.drop s)
    omega

lemma sliceAt_len (l : List Nat) (s n : Nat) (h : s + n ≤ l.length) :
    (sliceAt l s n).length = n := by
  unfold sliceAt
  rw [List.length_take, List.length_drop]
  omega

lemma getElem?_some_lt (l : List Nat) (i a : Nat) (h : l[i]? = some a) :
    i < l.length :=
  (List.getElem?_eq_some_iff.mp h).1

lemma rustSlice_ok_elim (l : List Nat) (a b : Nat) (v : List Nat)
    (h : rustSlice l a b = .ok v) :
    a ≤ b ∧ b ≤ l.length ∧ v = sliceAt l a (b - a) := by
  unfold rustSlice at h
  by_cases hc : a ≤ b ∧ b ≤ l.length
  · rw [if_pos hc] at h
    cases h
    exact ⟨hc.1, hc.2, rfl⟩
  · rw [if_neg hc] at h
    cases h

lemma rustSlice_ok_intro (l : List Nat) (a b : Nat) (h1 : a ≤ b)
    (h2 : b ≤ l.length) : rustSlice l a b = .ok (sliceAt l a (b - a)) := by
  unfold rustSlice
  rw [if_pos ⟨h1, h2⟩]

lemma sliceAt_two (l : List Nat) (i a b : Nat) (ha : l[i]? = some a)
    (hb : l[i + 1]? = some b) : sliceAt l i 2 = [a, b] := by
  refine List.ext_getElem? fun n => ?_
  rw [sliceAt_getElem?]
  match n with
  | 0 => simpa using ha
  | 1 => simpa using hb
  | n + 2 => simp

lemma sliceAt_eq_of_getElem? (l l' : List Nat) (s s' n : Nat)
    (h : ∀ i, i < n → l[s + i]? = l'[s' + i]?) :
    sliceAt l s n = sliceAt l' s' n := by
  refine List.ext_getElem? fun i => ?_
  rw [sliceAt_getElem?, sliceAt_getElem?]
  by_cases hi : i < n
  · rw [if_pos hi, if_pos hi, h i hi]
  · rw [if_neg hi, if_neg hi]

lemma rustSlice_congr (l l' : List Nat) (a b : Nat)
    (hlen : l'.length = l.length)
    (h : ∀ i, a ≤ i → i < b → l'[i]? = l[i]?) :
    rustSlice l' a b = rustSlice l a b := by
  unfold rustSlice
  rw [hlen]
  by_cases hc : a ≤ b ∧ b ≤ l.length
  · rw [if_pos hc, if_pos hc]
    congr 1
    refine sliceAt_eq_of_getElem? _ _ _ _ _ fun i hi => ?_
    exact h (a + i) (Nat.le_add_right a i) (by omega)
  · rw [if_neg hc, if_neg hc]

lemma sliceAt_sliceAt (l : List Nat) (k m a n : Nat) (h : a + n ≤ m) :
    sliceAt (sliceAt l k m) a n = sliceAt l (k + a) n := by
  refine List.ext_getElem? fun i => ?_
  rw [sliceAt_getElem? (sliceAt l k m), sliceAt_getElem? l (k + a)]
  by_cases hi : i < n
  · rw [if_pos hi, if_pos hi, sliceAt_getElem?, if_pos (by omega)]
    congr 1
    omega
  · rw [if_neg hi, if_neg hi]

lemma decode_u16_ok_shape (s : List Nat) (bo : ByteOrder) (v : Nat)
    (h : decode_u16 s bo = .ok v) : ∃ a b, s = [a, b] := by
  match s, bo with
  | [a, b], .BigEndian => exact ⟨a, b, rfl⟩
  | [a, b], .LittleEndian => exact ⟨a, b, rfl⟩

lemma length_write2 (l : List Nat) (s a b : Nat) :
    (write2 l s a b).length = l.length := by
  unfold write2
  rw [List.length_set, List.length_set]

lemma write2_getElem?_ne (l : List Nat) (s a b i : Nat)
    (h : i < s ∨ s + 2 ≤ i) : (write2 l s a b)[i]? = l[i]? := by
  unfold write2
  rw [List.getElem?_set_ne (by omega), List.getElem?_set_ne (by omega)]

lemma write2_getElem?_fst (l : List Nat) (s a b : Nat) (h : s < l.length) :
    (write2 l s a b)[s]? = some a := by
  unfold write2
  rw [List.getElem?_set_ne (by omega), List.getElem?_set_self h]

lemma write2_getElem?_snd (l : List Nat) (s a b : Nat)
    (h : s + 1 < l.length) : (write2 l s a b)[s + 1]? = some b := by
  unfold write2
  rw [List.getElem?_set_self (by rw [List.length_set]; omega)]

lemma read_tag_entry_some (app1 : List Nat) (tfo : Nat) (bo : ByteOrder)
    (s l : Nat) (h : read_tag_entry app1 tfo bo = .ok (some (s, l))) :
    s + l ≤ app1.length ∧ (l ≤ 4 → s = tfo + 8) := by
  unfold read_tag_entry at h
  cases hvts : rustSlice app1 (tfo + 2) (tfo + 4) with
  | panic => simp [hvts] at h
  | ok vts =>
  simp only [hvts] at h
  cases hvt : decode_u16 vts bo with
  | panic => simp [hvt] at h
  | ok vt =>
  simp only [hvt] at h
  cases hcs : rustSlice app1 (tfo + 4) (tfo + 8) with
  | panic => simp [hcs] at h
  | ok cs =>
  simp only [hcs] at h
  cases hcnt : decode_u32 cs bo with
  | panic => simp [hcnt] at h
  | ok count =>
  simp only [hcnt] at h
  cases hw : width vt with
  | none => simp [hw] at h
  | some w =>
  simp only [hw] at h
  by_cases hvb : w * count ≤ 4
  · rw [if_pos hvb] at h
    cases hb : rustSlice app1 (tfo + 8) (tfo + 8 + w * count) with
    | panic => simp [hb] at h
    | ok u =>
    simp only [hb, RRes.ok.injEq, Option.some.injEq, Prod.mk.injEq] at h
    obtain ⟨hs, hl⟩ := h
    have hbnd := rustSlice_ok_elim _ _ _ _ hb
    exact ⟨by omega, fun _ => by omega⟩
  · rw [if_neg hvb] at h
    cases hvos : rustSlice app1 (tfo + 8) (tfo + 12) with
    | panic => simp [hvos] at h
    | ok vos =>
    simp only [hvos] at h
    cases hvo : decode_u32 vos bo with
    | panic => simp [hvo] at h
    | ok vo =>
    simp only [hvo] at h
    cases hb : rustSlice app1 (OFFSET_TIFF_HEADER + vo)
        (OFFSET_TIFF_HEADER + vo + w * count) with
    | panic => simp [hb] at h
    | ok u =>
    simp only [hb, RRes.ok.injEq, Option.some.injEq, Prod.mk.injEq] at h
    obtain ⟨hs, hl⟩ := h
    have hbnd := rustSlice_ok_elim _ _ _ _ hb
    exact ⟨by omega, fun hc => by omega⟩

lemma read_tag_loop_some (app1 tb : List Nat) (bo : ByteOrder) :
    ∀ (n tfo s l : Nat),
      read_tag_loop app1 tb bo tfo n = .ok (some (s, l)) →
      s + l ≤ app1.length ∧ (l ≤ 4 → ∃ j, s = tfo + 12 * j + 8)
  | 0, tfo, s, l, h => by simp [read_tag_loop] at h
  | n + 1, tfo, s, l, h => by
    unfold read_tag_loop at h
    cases ht : rustSlice app1 tfo (tfo + 2) with
    | panic => simp [ht] at h
    | ok t =>
    simp only [ht] at h
    by_cases htb : t = tb
    · rw [if_pos htb] at h
      have hh := read_tag_entry_some app1 tfo bo s l h
      exact ⟨hh.1, fun hl => ⟨0, by have := hh.2 hl; omega⟩⟩
    · rw [if_neg htb] at h
      have hh := read_tag_loop_some app1 tb bo n (tfo + 12) s l h
      refine ⟨hh.1, fun hl => ?_⟩
      obtain ⟨j, hj⟩ := hh.2 hl
      exact ⟨j + 1, by omega⟩

lemma read_tag_loop_step (app1 tb : List Nat) (bo : ByteOrder) (tfo n : Nat)
    (b : List Nat) (hb : rustSlice app1 tfo (tfo + 2) = .ok b)
    (hbne : b ≠ tb) :
    read_tag_loop app1 tb bo tfo (n + 1) =
      read_tag_loop app1 tb bo (tfo + 12) n := by
  simp only [read_tag_loop, hb]
  rw [if_neg hbne]

lemma read_tag_loop_skip (app1 tb : List Nat) (bo : ByteOrder) :
    ∀ (j n tfo : Nat), j ≤ n →
      (∀ i, i < j → ∃ b, rustSlice app1 (tfo + 12 * i) (tfo + 12 * i + 2) =
        .ok b ∧ b ≠ tb) →
      read_tag_loop app1 tb bo tfo n =
        read_tag_loop app1 tb bo (tfo + 12 * j) (n - j)
  | 0, n, tfo, _, _ => by simp
  | j + 1, n, tfo, hj, hsk => by
    obtain ⟨m, rfl⟩ : ∃ m, n = m + 1 := ⟨n - 1, by omega⟩
    obtain ⟨b, hb, hbne⟩ := hsk 0 (by omega)
    rw [show tfo + 12 * 0 = tfo from by omega] at hb
    have hrec := read_tag_loop_skip app1 tb bo j m (tfo + 12) (by omega)
      (fun i hi => by
        obtain ⟨c, hc, hcne⟩ := hsk (i + 1) (by omega)
        refine ⟨c, ?_, hcne⟩
        rw [show tfo + 12 + 12 * i = tfo + 12 * (i + 1) from by ring]
        exact hc)
    calc read_tag_loop app1 tb bo tfo (m + 1)
        = read_tag_loop app1 tb bo (tfo + 12) m :=
          read_tag_loop_step app1 tb bo tfo m b hb hbne
      _ = read_tag_loop app1 tb bo (tfo + 12 + 12 * j) (m - j) := hrec
      _ = read_tag_loop app1 tb bo (tfo + 12 * (j + 1)) (m + 1 - (j + 1)) := by
          rw [show tfo + 12 + 12 * j = tfo + 12 * (j + 1) from by ring,
            show m - j = m + 1 - (j + 1) from by omega]

lemma read_tag_loop_match (app1 tb : List Nat) (bo : ByteOrder) (tfo n : Nat)
    (h : rustSlice app1 tfo (tfo + 2) = .ok tb) :
    read_tag_loop app1 tb bo tfo (n + 1) = read_tag_entry app1 tfo bo := by
  simp only [read_tag_loop, h]
  simp

lemma read_tag_eq_loop (app1 : List Nat) (off tag : Nat) (bo : ByteOrder)
    (cb : List Nat) (tn : Nat)
    (hcb : rustSlice app1 (OFFSET_TIFF_HEADER + off)
      (OFFSET_TIFF_HEADER + off + 2) = .ok cb)
    (htn : decode_u16 cb bo = .ok tn) :
    read_tag app1 off tag bo =
      read_tag_loop app1 (tag_bytes tag bo) bo
        (OFFSET_TIFF_HEADER + off + 2) tn := by
  unfold read_tag
  simp only [hcb, htn]

lemma read_tag_ok_elim (app1 : List Nat) (off tag : Nat) (bo : ByteOrder)
    (r : Option (Nat × Nat)) (h : read_tag app1 off tag bo = .ok r) :
    ∃ cb tn, rustSlice app1 (OFFSET_TIFF_HEADER + off)
        (OFFSET_TIFF_HEADER + off + 2) = .ok cb ∧
      decode_u16 cb bo = .ok tn ∧
      read_tag_loop app1 (tag_bytes tag bo) bo
        (OFFSET_TIFF_HEADER + off + 2) tn = .ok r := by
  unfold read_tag at h
  cases hcb : rustSlice app1 (OFFSET_TIFF_HEADER + off)
      (OFFSET_TIFF_HEADER + off + 2) with
  | panic => simp [hcb] at h
  | ok cb =>
  simp only [hcb] at h
  cases htn : decode_u16 cb bo with
  | panic => simp [htn] at h
  | ok tn =>
  simp only [htn] at h
  exact ⟨cb, tn, rfl, htn, h⟩

lemma read_tag_some_pos (app1 : List Nat) (off tag : Nat) (bo : ByteOrder)
    (s l : Nat) (h : read_tag app1 off tag bo = .ok (some (s, l))) :
    s + l ≤ app1.length ∧
      (l ≤ 4 → ∃ j, s = OFFSET_TIFF_HEADER + off + 2 + 12 * j + 8) := by
  obtain ⟨cb, tn, _, _, hloop⟩ := read_tag_ok_elim app1 off tag bo _ h
  exact read_tag_loop_some app1 (tag_bytes tag bo) bo tn _ s l hloop

lemma read_tag_entry_stable (app1 app1' : List Nat) (bo : ByteOrder)
    (s l tfo : Nat) (hlen : app1'.length = app1.length)
    (hag : ∀ i, i < s ∨ s + l ≤ i → app1'[i]? = app1[i]?)
    (hl : l ≤ 4) (hs : s = tfo + 8)
    (h : read_tag_entry app1 tfo bo = .ok (some (s, l))) :
    read_tag_entry app1' tfo bo = .ok (some (s, l)) := by
  unfold read_tag_entry at h ⊢
  have hc1 : rustSlice app1' (tfo + 2) (tfo + 4) =
      rustSlice app1 (tfo + 2) (tfo + 4) :=
    rustSlice_congr _ _ _ _ hlen (fun i h1 h2 => hag i (by omega))
  have hc2 : rustSlice app1' (tfo + 4) (tfo + 8) =
      rustSlice app1 (tfo + 4) (tfo + 8) :=
    rustSlice_congr _ _ _ _ hlen (fun i h1 h2 => hag i (by omega))
  rw [hc1, hc2]
  cases hvts : rustSlice app1 (tfo + 2) (tfo + 4) with
  | panic => simp [hvts] at h
  | ok vts =>
  simp only [hvts] at h ⊢
  cases hvt : decode_u16 vts bo with
  | panic => simp [hvt] at h
  | ok vt =>
  simp only [hvt] at h ⊢
  cases hcs : rustSlice app1 (tfo + 4) (tfo + 8) with
  | panic => simp [hcs] at h
  | ok cs =>
  simp only [hcs] at h ⊢
  cases hcnt : decode_u32 cs bo with
  | panic => simp [hcnt] at h
  | ok count =>
  simp only [hcnt] at h ⊢
  cases hw : width vt with
  | none => simp [hw] at h
  | some w =>
  simp only [hw] at h ⊢
  by_cases hvb : w * count ≤ 4
  · rw [if_pos hvb] at h ⊢
    cases hb : rustSlice app1 (tfo + 8) (tfo + 8 + w * count) with
    | panic => simp [hb] at h
    | ok u =>
    simp only [hb, RRes.ok.injEq, Option.some.injEq, Prod.mk.injEq] at h
    obtain ⟨hbnd1, hbnd2, hbnd3⟩ := rustSlice_ok_elim _ _ _ _ hb
    rw [rustSlice_ok_intro app1' (tfo + 8) (tfo + 8 + w * count) (by omega)
      (by omega)]
    rw [h.1, h.2]
  · rw [if_neg hvb] at h ⊢
    cases hvos : rustSlice app1 (tfo + 8) (tfo + 12) with
    | panic => simp [hvos] at h
    | ok vos =>
    simp only [hvos] at h
    cases hvo : decode_u32 vos bo with
    | panic => simp [hvo] at h
    | ok vo =>
    simp only [hvo] at h
    cases hb : rustSlice app1 (OFFSET_TIFF_HEADER + vo)
        (OFFSET_TIFF_HEADER + vo + w * count) with
    | panic => simp [hb] at h
    | ok u =>
    simp only [hb, RRes.ok.injEq, Option.some.injEq, Prod.mk.injEq] at h
    omega

lemma read_tag_loop_stable (app1 app1' tb : List Nat) (bo : ByteOrder)
    (s l : Nat) (hlen : app1'.length = app1.length)
    (hag : ∀ i, i < s ∨ s + l ≤ i → app1'[i]? = app1[i]?) (hl : l ≤ 4) :
    ∀ (n tfo : Nat),
      read_tag_loop app1 tb bo tfo n = .ok (some (s, l)) →
      read_tag_loop app1' tb bo tfo n = .ok (some (s, l))
  | 0, tfo, h => by simp [read_tag_loop] at h
  | n + 1, tfo, h => by
    have hpos := read_tag_loop_some app1 tb bo (n + 1) tfo s l h
    obtain ⟨j, hj⟩ := hpos.2 hl
    unfold read_tag_loop at h
    cases ht : rustSlice app1 tfo (tfo + 2) with
    | panic => simp [ht] at h
    | ok t =>
    simp only [ht] at h
    have hc : rustSlice app1' tfo (tfo + 2) = .ok t := by
      rw [rustSlice_congr app1 app1' tfo (tfo + 2) hlen
        (fun i h1 h2 => hag i (by omega))]
      exact ht
    by_cases htb : t = tb
    · rw [if_pos htb] at h
      subst htb
      rw [read_tag_loop_match app1' t bo tfo n hc]
      have hs : s = tfo + 8 := by
        have := (read_tag_entry_some app1 tfo bo s l h).2 hl
        omega
      exact read_tag_entry_stable app1 app1' bo s l tfo hlen hag hl hs h
    · rw [if_neg htb] at h
      rw [read_tag_loop_step app1' tb bo tfo n t hc htb]
      exact read_tag_loop_stable app1 app1' tb bo s l hlen hag hl n (tfo + 12) h

lemma read_tag_stable (app1 app1' : List Nat) (off tag : Nat)
    (bo : ByteOrder) (s l : Nat) (hlen : app1'.length = app1.length)
    (hag : ∀ i, i < s ∨ s + l ≤ i → app1'[i]? = app1[i]?) (hl : l ≤ 4)
    (h : read_tag app1 off tag bo = .ok (some (s, l))) :
    read_tag app1' off tag bo = .ok (some (s, l)) := by
  obtain ⟨cb, tn, hcb, htn, hloop⟩ := read_tag_ok_elim app1 off tag bo _ h
  obtain ⟨j, hj⟩ := (read_tag_loop_some app1 _ bo tn _ s l hloop).2 hl
  have hcb' : rustSlice app1' (OFFSET_TIFF_HEADER + off)
      (OFFSET_TIFF_HEADER + off + 2) = .ok cb := by
    rw [rustSlice_congr app1 app1' _ _ hlen (fun i h1 h2 => hag i (by omega))]
    exact hcb
  rw [read_tag_eq_loop app1' off tag bo cb tn hcb' htn]
  exact read_tag_loop_stable app1 app1' _ bo s l hlen hag hl tn _ hloop

lemma get_app1_loop_some (buf : List Nat) :
    ∀ (fuel i : Nat) (s : List Nat),
      get_app1_loop buf i fuel = .ok (some s) →
      ∃ k L lb, buf[k]? = some 0xFF ∧ buf[k + 1]? = some 0xE1 ∧
        rustSlice buf (k + 2) (k + 4) = .ok lb ∧
        decode_u16 lb .BigEndian = .ok L ∧
        rustSlice buf (k + 4) (k + 9) = .ok [0x45, 0x78, 0x69, 0x66, 0x00] ∧
        rustSlice buf k (k + L + 2) = .ok s
  | 0, i, s, h => by simp [get_app1_loop] at h
  | fuel + 1, i, s, h => by
    unfold get_app1_loop at h
    cases hm : rustSlice buf i (i + 2) with
    | panic => simp [hm] at h
    | ok m =>
    simp only [hm] at h
    by_cases hmm : m = [0xFF, 0xE1]
    · rw [if_pos hmm] at h
      cases hlb : rustSlice buf (i + 2) (i + 4) with
      | panic => simp [hlb] at h
      | ok lb =>
      simp only [hlb] at h
      cases hL : decode_u16 lb .BigEndian with
      | panic => simp [hL] at h
      | ok L =>
      simp only [hL] at h
      cases hid : rustSlice buf (i + 4) (i + 9) with
      | panic => simp [hid] at h
      | ok idb =>
      simp only [hid] at h
      by_cases hide : idb = [0x45, 0x78, 0x69, 0x66, 0x00]
      · rw [if_pos hide] at h
        cases hseg : rustSlice buf i (i + L + 2) with
        | panic => simp [hseg] at h
        | ok seg =>
        simp only [hseg, RRes.ok.injEq, Option.some.injEq] at h
        subst h
        subst hide
        obtain ⟨hb1, hb2, hb3⟩ := rustSlice_ok_elim _ _ _ _ hm
        have hm2 : sliceAt buf i 2 = [0xFF, 0xE1] := by
          rw [show (2 : Nat) = i + 2 - i from by omega]
          exact hb3 ▸ hmm
        have hf : buf[i]? = some 0xFF := by
          have := sliceAt_getElem? buf i 2 0
          rw [hm2] at this
          simpa using this.symm
        have he : buf[i + 1]? = some 0xE1 := by
          have := sliceAt_getElem? buf i 2 1
          rw [hm2] at this
          simpa using this.symm
        exact ⟨i, L, lb, hf, he, hlb, hL, hid, hseg⟩
      · rw [if_neg hide] at h
        exact get_app1_loop_some buf fuel (i + 1) s h
    · rw [if_neg hmm] at h
      exact get_app1_loop_some buf fuel (i + 1) s h

lemma get_app1_some (buf : List Nat) (s : List Nat)
    (h : get_app1 buf = .ok (some s)) :
    ∃ k L lb, buf[k]? = some 0xFF ∧ buf[k + 1]? = some 0xE1 ∧
      rustSlice buf (k + 2) (k + 4) = .ok lb ∧
      decode_u16 lb .BigEndian = .ok L ∧
      rustSlice buf (k + 4) (k + 9) = .ok [0x45, 0x78, 0x69, 0x66, 0x00] ∧
      rustSlice buf k (k + L + 2) = .ok s := by
  unfold get_app1 at h
  by_cases h0 : buf.length = 0
  · rw [if_pos h0] at h
    cases h
  · rw [if_neg h0] at h
    exact get_app1_loop_some buf _ 0 s h

lemma get_app1_self (l : List Nat) (L : Nat)
    (h0 : l[0]? = some 0xFF) (h1 : l[1]? = some 0xE1)
    (hL : decode_u16 (sliceAt l 2 2) .BigEndian = .ok L)
    (hlen : l.length = L + 2) (h9 : 9 ≤ l.length)
    (hex : rustSlice l 4 9 = .ok [0x45, 0x78, 0x69, 0x66, 0x00]) :
    get_app1 l = .ok (some l) := by
  unfold get_app1
  rw [if_neg (by omega)]
  obtain ⟨f, hf⟩ : ∃ f, l.length - 1 = f + 1 := ⟨l.length - 2, by omega⟩
  rw [hf]
  have hm : rustSlice l 0 (0 + 2) = .ok [0xFF, 0xE1] := by
    rw [rustSlice_ok_intro l 0 (0 + 2) (by omega) (by omega)]
    congr 1
    rw [show (0 + 2 - 0 : Nat) = 2 from by omega]
    exact sliceAt_two l 0 0xFF 0xE1 (by simpa using h0) (by simpa using h1)
  have hlb : rustSlice l (0 + 2) (0 + 4) = .ok (sliceAt l 2 2) := by
    rw [rustSlice_ok_intro l (0 + 2) (0 + 4) (by omega) (by omega)]
  have hid : rustSlice l (0 + 4) (0 + 9) =
      .ok [0x45, 0x78, 0x69, 0x66, 0x00] := by
    rw [show (0 + 4 : Nat) = 4 from by omega, show (0 + 9 : Nat) = 9 from by
      omega]
    exact hex
  have hseg : rustSlice l 0 (0 + L + 2) = .ok l := by
    rw [rustSlice_ok_intro l 0 (0 + L + 2) (by omega) (by omega)]
    congr 1
    unfold sliceAt
    rw [List.drop_zero]
    rw [show (0 + L + 2 - 0 : Nat) = l.length from by omega]
    exact List.take_length l
  simp only [get_app1_loop, hm, hlb, hL, hid, hseg]
  simp

example : decode_u16 [0x01, 0x12] .BigEndian = .ok 0x0112 := by decide
example : decode_u16 [0x12, 0x01] .LittleEndian = .ok 0x0112 := by decide
example : next_app0_index [0xFF, 0xD8] = .ok (.ok 2) := by decide
example : next_app0_index [0x00, 0x00] = .ok (.error soiErr) := by decide
example : next_app0_index [0xFF, 0xD8, 0xFF, 0xE0, 0x00] = .panic := by decide
example : get_app1 [] = .panic := by decide
example : get_app1 [0xFF, 0xD8] = .ok none := by decide
example : clear_orientation [0xFF, 0xD8] = .panic := by decide
example : get_app1 demoJpeg = .ok (some demoApp1) := by decide
example : get_orientation demoJpeg = .ok (some 6) := by decide
example : get_orientation (demoJpegVal 3) = .ok (some 3) := by decide
example : get_orientation (demoJpegVal 0) = .ok none := by decide
example : get_orientation (demoJpegVal 9) = .ok none := by decide
example : get_orientation demoNoSoi = .ok (some 6) := by decide
example : clear_orientation demoJpeg = .ok (write2 demoApp1 28 0 1) := by decide
example : get_orientation (write2 demoApp1 28 0 1) = .ok (some 1) := by decide
example : get_date_time_original demoJpeg =
    .ok (some [0x32, 0x30, 0x31, 0x35, 0x3A, 0x30, 0x39, 0x3A, 0x32, 0x37,
      0x20, 0x31, 0x31, 0x3A, 0x34, 0x33, 0x3A, 0x31, 0x31]) := by decide
example : read_tag dupTagBuf 0 ORIENTATION .BigEndian = .ok (some (20, 2)) := by
  decide
example : next_app0_index app0Buf = .ok (.ok 20) := by decide

lemma sliceAt_zero_take (l : List Nat) (n : Nat) : sliceAt l 0 n = l.take n := by
  unfold sliceAt
  rw [List.drop_zero]

lemma next_app0_loop_step (buf : List Nat) (i fuel : Nat) (m : List Nat)
    (hm : rustSlice buf i (i + 2) = .ok m) (hne : m ≠ [0xFF, 0xE0]) :
    next_app0_loop buf i (fuel + 1) = next_app0_loop buf (i + 1) fuel := by
  simp only [next_app0_loop, hm]
  rw [if_neg hne]

lemma next_app0_loop_hit (buf : List Nat) (i fuel L : Nat) (lb : List Nat)
    (hm : rustSlice buf i (i + 2) = .ok [0xFF, 0xE0])
    (hlb : rustSlice buf (i + 2) (i + 4) = .ok lb)
    (hL : decode_u16 lb .BigEndian = .ok L)
    (hid : rustSlice buf (i + 4) (i + 9) =
      .ok [0x4A, 0x46, 0x49, 0x46, 0x00]) :
    next_app0_loop buf i (fuel + 1) = .ok (i + L + 2) := by
  simp only [next_app0_loop, hm, hlb, hL, hid]
  simp

lemma no_pair_slice_ne (buf : List Nat) (i : Nat) (x y : Nat)
    (hnp : ∀ k, k < buf.length →
      ¬(buf[k]? = some x ∧ buf[k + 1]? = some y)) :
    sliceAt buf i 2 ≠ [x, y] := by
  intro hc
  have h0 := sliceAt_getElem? buf i 2 0
  have h1 := sliceAt_getElem? buf i 2 1
  rw [hc] at h0 h1
  have hx : buf[i]? = some x := by simpa using h0.symm
  have hy : buf[i + 1]? = some y := by simpa using h1.symm
  exact hnp i (getElem?_some_lt _ _ _ hx) ⟨hx, hy⟩

lemma next_app0_loop_none (buf : List Nat)
    (hnp : ∀ k, k < buf.length →
      ¬(buf[k]? = some 0xFF ∧ buf[k + 1]? = some 0xE0)) :
    ∀ (fuel i : Nat), (i + fuel + 1 ≤ buf.length ∨ fuel = 0) →
      next_app0_loop buf i fuel = .ok 2
  | 0, i, _ => rfl
  | fuel + 1, i, hb => by
    rcases hb with hb | hb
    · have hm := rustSlice_ok_intro buf i (i + 2) (by omega) (by omega)
      rw [show i + 2 - i = 2 from by omega] at hm
      rw [next_app0_loop_step buf i fuel _ hm
        (no_pair_slice_ne buf i 0xFF 0xE0 hnp)]
      exact next_app0_loop_none buf hnp fuel (i + 1) (by omega)
    · exact absurd hb (by omega)

lemma next_app0_loop_skip (buf : List Nat) :
    ∀ (j i fuel : Nat), j ≤ fuel → i + j + 1 ≤ buf.length →
      (∀ k, i ≤ k → k < i + j →
        ¬(buf[k]? = some 0xFF ∧ buf[k + 1]? = some 0xE0)) →
      next_app0_loop buf i fuel = next_app0_loop buf (i + j) (fuel - j)
  | 0, i, fuel, _, _, _ => by simp
  | j + 1, i, fuel, hj, hbnd, hnp => by
    obtain ⟨f, rfl⟩ : ∃ f, fuel = f + 1 := ⟨fuel - 1, by omega⟩
    have hm := rustSlice_ok_intro buf i (i + 2) (by omega) (by omega)
    rw [show i + 2 - i = 2 from by omega] at hm
    have hne : sliceAt buf i 2 ≠ [0xFF, 0xE0] := by
      intro hc
      have h0 := sliceAt_getElem? buf i 2 0
      have h1 := sliceAt_getElem? buf i 2 1
      rw [hc] at h0 h1
      refine hnp i (le_refl i) (by omega) ⟨?_, ?_⟩
      · simpa using h0.symm
      · simpa using h1.symm
    rw [next_app0_loop_step buf i f _ hm hne]
    have hrec := next_app0_loop_skip buf j (i + 1) f (by omega) (by omega)
      (fun k hk1 hk2 => hnp k (by omega) (by omega))
    rw [hrec, show i + 1 + j = i + (j + 1) from by ring,
      show f - j = f + 1 - (j + 1) from by omega]

/-- C6: for a buffer starting with SOI, `next_app0_index` returns 2 when
no `FF E0` marker pair occurs anywhere, and returns `o + L + 2` when the
first `FF E0` pair sits at offset `o` and is followed by a big-endian
length `L` and the `JFIF NUL` identifier. -/
theorem next_app0_index_spec (buf : List Nat)
    (hsoi : buf.take 2 = [0xFF, 0xD8]) :
    ((∀ k, k < buf.length →
        ¬(buf[k]? = some 0xFF ∧ buf[k + 1]? = some 0xE0)) →
      next_app0_index buf = .ok (.ok 2)) ∧
    (∀ o L lb, 2 ≤ o →
      (∀ k, k < o → 2 ≤ k →
        ¬(buf[k]? = some 0xFF ∧ buf[k + 1]? = some 0xE0)) →
      rustSlice buf o (o + 2) = .ok [0xFF, 0xE0] →
      rustSlice buf (o + 2) (o + 4) = .ok lb →
      decode_u16 lb .BigEndian = .ok L →
      rustSlice buf (o + 4) (o + 9) = .ok [0x4A, 0x46, 0x49, 0x46, 0x00] →
      next_app0_index buf = .ok (.ok (o + L + 2))) := by
  have hlen2 : 2 ≤ buf.length := by
    have := congrArg List.length hsoi
    rw [List.length_take] at this
    simp at this
    omega
  have hsoi2 : rustSlice buf 0 2 = .ok [0xFF, 0xD8] := by
    rw [rustSlice_ok_intro buf 0 2 (by omega) hlen2,
      show (2 - 0 : Nat) = 2 from by omega, sliceAt_zero_take, hsoi]
  constructor
  · intro hnp
    unfold next_app0_index
    rw [hsoi2]
    have hloop : next_app0_loop buf 2 (buf.length - 1 - 2) = .ok 2 := by
      refine next_app0_loop_none buf hnp (buf.length - 1 - 2) 2 ?_
      omega
    simp only [hloop]
    simp
  · intro o L lb ho hnp hm hlb hL hid
    unfold next_app0_index
    rw [hsoi2]
    have hob : o + 2 ≤ buf.length := (rustSlice_ok_elim _ _ _ _ hm).2.1
    have hskip := next_app0_loop_skip buf (o - 2) 2 (buf.length - 1 - 2)
      (by omega) (by omega)
      (fun k hk1 hk2 => hnp k (by omega) (by omega))
    rw [show 2 + (o - 2) = o from by omega] at hskip
    obtain ⟨g, hg⟩ : ∃ g, buf.length - 1 - 2 - (o - 2) = g + 1 :=
      ⟨buf.length - 1 - 2 - (o - 2) - 1, by omega⟩
    rw [hg] at hskip
    have hhit := next_app0_loop_hit buf o g L lb hm hlb hL hid
    rw [hskip, hhit]
    simp

/-- Witness for C6: both branches at concrete buffers — `app0Buf` holds an
APP0/JFIF segment of length 0x10 at offset 2 (result 2 + 0x10 + 2 = 20),
and `FF D8 00 00 00` holds none (result 2). -/
theorem next_app0_index_spec_witness :
    next_app0_index app0Buf = .ok (.ok 20) ∧
      next_app0_index [0xFF, 0xD8, 0x00, 0x00, 0x00] = .ok (.ok 2) := by
  constructor
  · exact (next_app0_index_spec app0Buf (by decide)).2 2 16 [0x00, 0x10]
      (by decide) (by decide) (by decide) (by decide) (by decide) (by decide)
  · exact (next_app0_index_spec [0xFF, 0xD8, 0x00, 0x00, 0x00]
      (by decide)).1 (by decide)

/-- C1 (counterexample): in `dupTagBuf` both IFD entries carry the
Orientation tag id; the first stores 3 at offset 20 and the second
(the last match of the forward scan) stores 7 at offset 32.  `read_tag`
returns the value region of the first matching entry, not the last. -/
theorem read_tag_duplicate_first_wins_cex :
    read_tag dupTagBuf 0 ORIENTATION .BigEndian = .ok (some (20, 2)) ∧
    rustSlice dupTagBuf 24 26 = .ok (tag_bytes ORIENTATION .BigEndian) ∧
    sliceAt dupTagBuf 20 2 = [0x00, 0x03] ∧
    sliceAt dupTagBuf 32 2 = [0x00, 0x07] ∧
    read_tag dupTagBuf 0 ORIENTATION .BigEndian ≠ .ok (some (32, 2)) := by
  decide

/-- C1 (amended): when an IFD holds a duplicate of the searched tag —
some later entry `k` also matches — the lookup still resolves to the
value of the first matching entry `j`: the result is the decoding of
entry `j` alone. -/
theorem read_tag_duplicate_first_wins (app1 : List Nat) (off tag : Nat)
    (bo : ByteOrder) (cb : List Nat) (tag_num j : Nat)
    (hcb : rustSlice app1 (OFFSET_TIFF_HEADER + off)
      (OFFSET_TIFF_HEADER + off + 2) = .ok cb)
    (htn : decode_u16 cb bo = .ok tag_num)
    (hj : j < tag_num)
    (hskip : ∀ i, i < j → ∃ b,
      rustSlice app1 (OFFSET_TIFF_HEADER + off + 2 + 12 * i)
        (OFFSET_TIFF_HEADER + off + 2 + 12 * i + 2) = .ok b ∧
      b ≠ tag_bytes tag bo)
    (hmatch : rustSlice app1 (OFFSET_TIFF_HEADER + off + 2 + 12 * j)
      (OFFSET_TIFF_HEADER + off + 2 + 12 * j + 2) = .ok (tag_bytes tag bo))
    (hdup : ∃ k, j < k ∧ k < tag_num ∧
      rustSlice app1 (OFFSET_TIFF_HEADER + off + 2 + 12 * k)
        (OFFSET_TIFF_HEADER + off + 2 + 12 * k + 2) =
        .ok (tag_bytes tag bo)) :
    read_tag app1 off tag bo =
      read_tag_entry app1 (OFFSET_TIFF_HEADER + off + 2 + 12 * j) bo := by
  rw [read_tag_eq_loop app1 off tag bo cb tag_num hcb htn,
    read_tag_loop_skip app1 (tag_bytes tag bo) bo j tag_num
      (OFFSET_TIFF_HEADER + off + 2) (by omega) hskip]
  obtain ⟨g, hg⟩ : ∃ g, tag_num - j = g + 1 := ⟨tag_num - j - 1, by omega⟩
  rw [hg, read_tag_loop_match _ _ _ _ _ hmatch]

/-- Witness for the amended C1 at `dupTagBuf` (first entry at offset 12,
duplicate at offset 24). -/
theorem read_tag_duplicate_first_wins_witness :
    read_tag dupTagBuf 0 ORIENTATION .BigEndian =
      read_tag_entry dupTagBuf (OFFSET_TIFF_HEADER + 0 + 2 + 12 * 0)
        .BigEndian := by
  exact read_tag_duplicate_first_wins dupTagBuf 0 ORIENTATION .BigEndian
    [0x00, 0x02] 2 0 (by decide) (by decide) (by decide)
    (fun i hi => absurd hi (by omega)) (by decide)
    ⟨1, by omega, by omega, by decide⟩

lemma width_eq_none (vt : Nat) (h2 : vt ≠ 2) (h3 : vt ≠ 3) (h4 : vt ≠ 4) :
    width vt = none := by
  match vt, h2, h3, h4 with
  | 0, _, _, _ => rfl
  | 1, _, _, _ => rfl
  | 2, h2, _, _ => exact absurd rfl h2
  | 3, _, h3, _ => exact absurd rfl h3
  | 4, _, _, h4 => exact absurd rfl h4
  | n + 5, _, _, _ => rfl

/-- C9: when the matched entry declares a value type other than 2 (ASCII),
3 (SHORT) or 4 (LONG), the lookup stops decoding that tag and returns the
absent value `none` — identical to the tag not being present — without
rejecting the rest of the file (no panic, no error). -/
theorem read_tag_unsupported_type (app1 : List Nat) (off tag : Nat)
    (bo : ByteOrder) (cb vts cs : List Nat) (tag_num j vt count : Nat)
    (hcb : rustSlice app1 (OFFSET_TIFF_HEADER + off)
      (OFFSET_TIFF_HEADER + off + 2) = .ok cb)
    (htn : decode_u16 cb bo = .ok tag_num)
    (hj : j < tag_num)
    (hskip : ∀ i, i < j → ∃ b,
      rustSlice app1 (OFFSET_TIFF_HEADER + off + 2 + 12 * i)
        (OFFSET_TIFF_HEADER + off + 2 + 12 * i + 2) = .ok b ∧
      b ≠ tag_bytes tag bo)
    (hmatch : rustSlice app1 (OFFSET_TIFF_HEADER + off + 2 + 12 * j)
      (OFFSET_TIFF_HEADER + off + 2 + 12 * j + 2) = .ok (tag_bytes tag bo))
    (hvts : rustSlice app1 (OFFSET_TIFF_HEADER + off + 2 + 12 * j + 2)
      (OFFSET_TIFF_HEADER + off + 2 + 12 * j + 4) = .ok vts)
    (hvt : decode_u16 vts bo = .ok vt)
    (hcs : rustSlice app1 (OFFSET_TIFF_HEADER + off + 2 + 12 * j + 4)
      (OFFSET_TIFF_HEADER + off + 2 + 12 * j + 8) = .ok cs)
    (hcnt : decode_u32 cs bo = .ok count)
    (h2 : vt ≠ 2) (h3 : vt ≠ 3) (h4 : vt ≠ 4) :
    read_tag app1 off tag bo = .ok none := by
  rw [read_tag_eq_loop app1 off tag bo cb tag_num hcb htn,
    read_tag_loop_skip app1 (tag_bytes tag bo) bo j tag_num
      (OFFSET_TIFF_HEADER + off + 2) (by omega) hskip]
  obtain ⟨g, hg⟩ : ∃ g, tag_num - j = g + 1 := ⟨tag_num - j - 1, by omega⟩
  rw [hg, read_tag_loop_match _ _ _ _ _ hmatch]
  unfold read_tag_entry
  simp only [hvts, hvt, hcs, hcnt, width_eq_none vt h2 h3 h4]

/-- Witness for C9: a buffer whose single IFD entry matches the tag but
declares value type 7 (UNDEFINED, unsupported). -/
theorem read_tag_unsupported_type_witness :
    read_tag
      [0, 0, 0, 0, 0, 0, 0, 0, 0, 0, 0x00, 0x01,
       0x01, 0x12, 0x00, 0x07, 0x00, 0x00, 0x00, 0x01, 0x00, 0x06, 0x00,
       0x00] 0 ORIENTATION .BigEndian = .ok none := by
  exact read_tag_unsupported_type
    [0, 0, 0, 0, 0, 0, 0, 0, 0, 0, 0x00, 0x01,
     0x01, 0x12, 0x00, 0x07, 0x00, 0x00, 0x00, 0x01, 0x00, 0x06, 0x00, 0x00]
    0 ORIENTATION .BigEndian [0x00, 0x01] [0x00, 0x07]
    [0x00, 0x00, 0x00, 0x01] 1 0 7 1
    (by decide) (by decide) (by decide) (fun i hi => absurd hi (by omega))
    (by decide) (by decide) (by decide) (by decide) (by decide)
    (by decide) (by decide) (by decide)

/-- C5: for a matched entry with supported type, when
`value_bytes = width * count` is at most 4 the lookup returns the
`value_bytes`-long region starting at the entry's 9th byte (inline, no
indirection), and when it exceeds 4 it decodes the entry's last 4 bytes as
an offset relative to the TIFF header start and returns the region of
length `value_bytes` at `OFFSET_TIFF_HEADER + offset`. -/
theorem read_tag_inline_or_indirect (app1 : List Nat) (off tag : Nat)
    (bo : ByteOrder) (cb vts cs : List Nat) (tag_num j vt w count : Nat)
    (hcb : rustSlice app1 (OFFSET_TIFF_HEADER + off)
      (OFFSET_TIFF_HEADER + off + 2) = .ok cb)
    (htn : decode_u16 cb bo = .ok tag_num)
    (hj : j < tag_num)
    (hskip : ∀ i, i < j → ∃ b,
      rustSlice app1 (OFFSET_TIFF_HEADER + off + 2 + 12 * i)
        (OFFSET_TIFF_HEADER + off + 2 + 12 * i + 2) = .ok b ∧
      b ≠ tag_bytes tag bo)
    (hmatch : rustSlice app1 (OFFSET_TIFF_HEADER + off + 2 + 12 * j)
      (OFFSET_TIFF_HEADER + off + 2 + 12 * j + 2) = .ok (tag_bytes tag bo))
    (hvts : rustSlice app1 (OFFSET_TIFF_HEADER + off + 2 + 12 * j + 2)
      (OFFSET_TIFF_HEADER + off + 2 + 12 * j + 4) = .ok vts)
    (hvt : decode_u16 vts bo = .ok vt)
    (hw : width vt = some w)
    (hcs : rustSlice app1 (OFFSET_TIFF_HEADER + off + 2 + 12 * j + 4)
      (OFFSET_TIFF_HEADER + off + 2 + 12 * j + 8) = .ok cs)
    (hcnt : decode_u32 cs bo = .ok count) :
    (w * count ≤ 4 →
      OFFSET_TIFF_HEADER + off + 2 + 12 * j + 8 + w * count ≤ app1.length →
      read_tag app1 off tag bo =
        .ok (some (OFFSET_TIFF_HEADER + off + 2 + 12 * j + 8, w * count))) ∧
    (∀ vos vo, 4 < w * count →
      rustSlice app1 (OFFSET_TIFF_HEADER + off + 2 + 12 * j + 8)
        (OFFSET_TIFF_HEADER + off + 2 + 12 * j + 12) = .ok vos →
      decode_u32 vos bo = .ok vo →
      OFFSET_TIFF_HEADER + vo + w * count ≤ app1.length →
      read_tag app1 off tag bo =
        .ok (some (OFFSET_TIFF_HEADER + vo, w * count))) := by
  have hrw : read_tag app1 off tag bo =
      read_tag_entry app1 (OFFSET_TIFF_HEADER + off + 2 + 12 * j) bo := by
    rw [read_tag_eq_loop app1 off tag bo cb tag_num hcb htn,
      read_tag_loop_skip app1 (tag_bytes tag bo) bo j tag_num
        (OFFSET_TIFF_HEADER + off + 2) (by omega) hskip]
    obtain ⟨g, hg⟩ : ∃ g, tag_num - j = g + 1 := ⟨tag_num - j - 1, by omega⟩
    rw [hg, read_tag_loop_match _ _ _ _ _ hmatch]
  constructor
  · intro hvb hbnd
    rw [hrw]
    unfold read_tag_entry
    simp only [hvts, hvt, hcs, hcnt, hw]
    rw [if_pos hvb, rustSlice_ok_intro app1 _ _ (by omega) hbnd]
  · intro vos vo hvb hvos hvo hbnd
    rw [hrw]
    unfold read_tag_entry
    simp only [hvts, hvt, hcs, hcnt, hw]
    rw [if_neg (by omega)]
    simp only [hvos, hvo]
    rw [rustSlice_ok_intro app1 _ _ (by omega) hbnd]

/-- Witness for C5: in `demoApp1` the Orientation entry (entry 0 of the
0th IFD, SHORT count 1, `value_bytes = 2 ≤ 4`) resolves inline to region
(28, 2), and the DateTimeOriginal entry (entry 0 of the Exif IFD, ASCII
count 20, `value_bytes = 20 > 4`) resolves through the offset 0x38 to
region (66, 20). -/
theorem read_tag_inline_or_indirect_witness :
    read_tag demoApp1 8 ORIENTATION .BigEndian = .ok (some (28, 2)) ∧
      read_tag demoApp1 38 DATE_TIME_ORIGINAL .BigEndian =
        .ok (some (66, 20)) := by
  constructor
  · exact (read_tag_inline_or_indirect demoApp1 8 ORIENTATION .BigEndian
      [0x00, 0x02] [0x00, 0x03] [0x00, 0x00, 0x00, 0x01] 2 0 3 2 1
      (by decide) (by decide) (by decide) (fun i hi => absurd hi (by omega))
      (by decide) (by decide) (by decide) (by decide) (by decide)
      (by decide)).1 (by decide) (by decide)
  · exact (read_tag_inline_or_indirect demoApp1 38 DATE_TIME_ORIGINAL
      .BigEndian [0x00, 0x01] [0x00, 0x02] [0x00, 0x00, 0x00, 0x14] 1 0 2 1
      20 (by decide) (by decide) (by decide)
      (fun i hi => absurd hi (by omega)) (by decide) (by decide) (by decide)
      (by decide) (by decide) (by decide)).2 [0x00, 0x00, 0x00, 0x38] 0x38
      (by decide) (by decide) (by decide) (by decide)

/-- C7: `get_orientation` returns the decoded Orientation value when it
lies in 1..8, `none` when it is 0 or above 8, and `none` when the APP1
segment or the tag is absent. -/
theorem get_orientation_spec (jpeg app1 : List Nat) (bo : ByteOrder)
    (off0 : Nat) (hA : get_app1 jpeg = .ok (some app1))
    (hBo : detect_byte_order app1 = .ok bo)
    (hOff : read_ifd0_offset app1 bo = .ok off0) :
    (read_tag app1 off0 ORIENTATION bo = .ok none →
      get_orientation jpeg = .ok none) ∧
    (∀ s v, read_tag app1 off0 ORIENTATION bo = .ok (some (s, 2)) →
      decode_u16 (sliceAt app1 s 2) bo = .ok v →
      get_orientation jpeg = .ok (if v = 0 ∨ 8 < v then none else some v)) ∧
    (∀ jp : List Nat, get_app1 jp = .ok none →
      get_orientation jp = .ok none) := by
  refine ⟨?_, ?_, ?_⟩
  · intro h
    unfold get_orientation
    simp only [hA, hBo, hOff, h]
  · intro s v hrt hdec
    unfold get_orientation
    simp only [hA, hBo, hOff, hrt, hdec]
    by_cases hv : v = 0 ∨ 8 < v
    · rw [if_pos hv, if_pos hv]
    · rw [if_neg hv, if_neg hv]
  · intro jp h
    unfold get_orientation
    simp only [h]

/-- Witness for C7 at three concrete JPEGs: stored value 3 yields
`some 3`, stored values 0 and 9 yield `none`. -/
theorem get_orientation_spec_witness :
    get_orientation (demoJpegVal 3) = .ok (some 3) ∧
      get_orientation (demoJpegVal 0) = .ok none ∧
      get_orientation (demoJpegVal 9) = .ok none := by
  refine ⟨?_, ?_, ?_⟩
  · have h := (get_orientation_spec (demoJpegVal 3) (demoApp1Val 3)
      .BigEndian 8 (by decide) (by decide) (by decide)).2.1 28 3
      (by decide) (by decide)
    simpa using h
  · have h := (get_orientation_spec (demoJpegVal 0) (demoApp1Val 0)
      .BigEndian 8 (by decide) (by decide) (by decide)).2.1 28 0
      (by decide) (by decide)
    simpa using h
  · have h := (get_orientation_spec (demoJpegVal 9) (demoApp1Val 9)
      .BigEndian 8 (by decide) (by decide) (by decide)).2.1 28 9
      (by decide) (by decide)
    simpa using h

/-- C8: `get_date_time_original` resolves the Exif IFD pointer tag in the
0th IFD, then the DateTimeOriginal tag in the pointed-to sub-IFD, and
returns exactly the first 19 bytes of its 20-byte NUL-terminated ASCII
value; it returns `none` when the APP1 segment, the pointer tag, or the
DateTimeOriginal tag is absent. -/
theorem get_date_time_original_spec (jpeg app1 : List Nat) (bo : ByteOrder)
    (off0 : Nat) (hA : get_app1 jpeg = .ok (some app1))
    (hBo : detect_byte_order app1 = .ok bo)
    (hOff : read_ifd0_offset app1 bo = .ok off0) :
    (read_tag app1 off0 EXIF_IFD_POINTER bo = .ok none →
      get_date_time_original jpeg = .ok none) ∧
    (∀ sp lp exoff,
      read_tag app1 off0 EXIF_IFD_POINTER bo = .ok (some (sp, lp)) →
      decode_u32 (sliceAt app1 sp lp) bo = .ok exoff →
      (read_tag app1 exoff DATE_TIME_ORIGINAL bo = .ok none →
        get_date_time_original jpeg = .ok none) ∧
      (∀ sd, read_tag app1 exoff DATE_TIME_ORIGINAL bo = .ok (some (sd, 20)) →
        (sliceAt app1 sd 20).getLast? = some 0 →
        get_date_time_original jpeg =
          .ok (some ((sliceAt app1 sd 20).take 19)))) ∧
    (∀ jp : List Nat, get_app1 jp = .ok none →
      get_date_time_original jp = .ok none) := by
  refine ⟨?_, ?_, ?_⟩
  · intro h
    unfold get_date_time_original
    simp only [hA, hBo, hOff, h]
  · intro sp lp exoff hp hdec
    refine ⟨?_, ?_⟩
    · intro h
      unfold get_date_time_original
      simp only [hA, hBo, hOff, hp, hdec, h]
    · intro sd hd hnul
      have hbnd := (read_tag_some_pos app1 exoff DATE_TIME_ORIGINAL bo sd 20
        hd).1
      have hlen : (sliceAt app1 sd 20).length = 20 :=
        sliceAt_len app1 sd 20 hbnd
      unfold get_date_time_original
      simp only [hA, hBo, hOff, hp, hdec, hd]
      rw [if_pos (by omega)]
  · intro jp h
    unfold get_date_time_original
    simp only [h]

/-- Witness for C8 at `demoJpeg`: the stored value
`2015:09:27 11:43:11 NUL` yields the 19 bytes `2015:09:27 11:43:11`. -/
theorem get_date_time_original_spec_witness :
    get_date_time_original demoJpeg =
      .ok (some [0x32, 0x30, 0x31, 0x35, 0x3A, 0x30, 0x39, 0x3A, 0x32, 0x37,
        0x20, 0x31, 0x31, 0x3A, 0x34, 0x33, 0x3A, 0x31, 0x31]) := by
  have h := (((get_date_time_original_spec demoJpeg demoApp1 .BigEndian 8
    (by decide) (by decide) (by decide)).2.1) 40 4 0x26 (by decide)
    (by decide)).2 66 (by decide) (by decide)
  simpa using h

/-- C4: for a JPEG with a valid EXIF APP1 whose Orientation stores 6,
`clear_orientation` returns the APP1 copy with only the two Orientation
value bytes rewritten (every byte outside the 2-byte value region is
unchanged), and `get_orientation` applied to that returned buffer yields
`some 1`; when the Orientation tag is absent the copy equals the original
segment byte for byte. -/
theorem clear_orientation_roundtrip (jpeg app1 : List Nat) (bo : ByteOrder)
    (off0 : Nat) (hA : get_app1 jpeg = .ok (some app1))
    (hBo : detect_byte_order app1 = .ok bo)
    (hOff : read_ifd0_offset app1 bo = .ok off0) :
    (∀ s, read_tag app1 off0 ORIENTATION bo = .ok (some (s, 2)) →
      decode_u16 (sliceAt app1 s 2) bo = .ok 6 →
      clear_orientation jpeg =
        .ok (write2 app1 s (ori_b0 bo) (ori_b1 bo)) ∧
      get_orientation (write2 app1 s (ori_b0 bo) (ori_b1 bo)) =
        .ok (some 1) ∧
      (write2 app1 s (ori_b0 bo) (ori_b1 bo)).length = app1.length ∧
      (∀ i, i < s ∨ s + 2 ≤ i →
        (write2 app1 s (ori_b0 bo) (ori_b1 bo))[i]? = app1[i]?)) ∧
    (read_tag app1 off0 ORIENTATION bo = .ok none →
      clear_orientation jpeg = .ok app1) := by
  have hOT : OFFSET_TIFF_HEADER = 10 := rfl
  constructor
  · intro s hrt hdec
    have hpos := read_tag_some_pos app1 off0 ORIENTATION bo s 2 hrt
    have hs2len : s + 2 ≤ app1.length := hpos.1
    obtain ⟨j, hj⟩ := hpos.2 (by omega)
    have hs20 : 20 ≤ s := by omega
    have hlen' : (write2 app1 s (ori_b0 bo) (ori_b1 bo)).length =
        app1.length := length_write2 app1 s _ _
    have hag : ∀ i, i < s ∨ s + 2 ≤ i →
        (write2 app1 s (ori_b0 bo) (ori_b1 bo))[i]? = app1[i]? :=
      fun i hi => write2_getElem?_ne app1 s _ _ i hi
    -- structural facts about app1 from a successful get_app1
    obtain ⟨k, L, lb, hkF, hkE, hklb, hkL, hkEx, hkSeg⟩ :=
      get_app1_some jpeg app1 hA
    obtain ⟨-, hkLen, happ1⟩ := rustSlice_ok_elim _ _ _ _ hkSeg
    rw [show k + L + 2 - k = L + 2 from by omega] at happ1
    have happ1len : app1.length = L + 2 := by
      rw [happ1]
      exact sliceAt_len _ _ _ (by omega)
    have hL20 : 20 ≤ L := by omega
    have ha0 : app1[0]? = some 0xFF := by
      rw [happ1, sliceAt_getElem?, if_pos (by omega)]
      simpa using hkF
    have ha1 : app1[1]? = some 0xE1 := by
      rw [happ1, sliceAt_getElem?, if_pos (by omega)]
      exact hkE
    obtain ⟨-, -, hlbv⟩ := rustSlice_ok_elim _ _ _ _ hklb
    rw [show k + 4 - (k + 2) = 2 from by omega] at hlbv
    have haL : decode_u16 (sliceAt app1 2 2) .BigEndian = .ok L := by
      rw [happ1, sliceAt_sliceAt jpeg k (L + 2) 2 2 (by omega), ← hlbv]
      exact hkL
    obtain ⟨-, -, hexv⟩ := rustSlice_ok_elim _ _ _ _ hkEx
    rw [show k + 9 - (k + 4) = 5 from by omega] at hexv
    have haEx : rustSlice app1 4 9 = .ok [0x45, 0x78, 0x69, 0x66, 0x00] := by
      rw [rustSlice_ok_intro app1 4 9 (by omega) (by omega),
        show (9 - 4 : Nat) = 5 from by omega, happ1,
        sliceAt_sliceAt jpeg k (L + 2) 4 5 (by omega), ← hexv]
    -- the same facts for the written copy
    have ha0' : (write2 app1 s (ori_b0 bo) (ori_b1 bo))[0]? = some 0xFF := by
      rw [hag 0 (by omega)]
      exact ha0
    have ha1' : (write2 app1 s (ori_b0 bo) (ori_b1 bo))[1]? = some 0xE1 := by
      rw [hag 1 (by omega)]
      exact ha1
    have haL' : decode_u16
        (sliceAt (write2 app1 s (ori_b0 bo) (ori_b1 bo)) 2 2) .BigEndian =
        .ok L := by
      rw [sliceAt_eq_of_getElem? (write2 app1 s (ori_b0 bo) (ori_b1 bo))
        app1 2 2 2 (fun i hi => hag (2 + i) (by omega))]
      exact haL
    have hlen'2 : (write2 app1 s (ori_b0 bo) (ori_b1 bo)).length = L + 2 := by
      rw [hlen', happ1len]
    have haEx' : rustSlice (write2 app1 s (ori_b0 bo) (ori_b1 bo)) 4 9 =
        .ok [0x45, 0x78, 0x69, 0x66, 0x00] := by
      rw [rustSlice_congr app1 (write2 app1 s (ori_b0 bo) (ori_b1 bo)) 4 9
        hlen' (fun i h1 h2 => hag i (by omega))]
      exact haEx
    have hA' : get_app1 (write2 app1 s (ori_b0 bo) (ori_b1 bo)) =
        .ok (some (write2 app1 s (ori_b0 bo) (ori_b1 bo))) :=
      get_app1_self _ L ha0' ha1' haL' hlen'2 (by omega) haEx'
    have hBo' : detect_byte_order (write2 app1 s (ori_b0 bo) (ori_b1 bo)) =
        .ok bo := by
      unfold detect_byte_order at hBo ⊢
      rw [rustSlice_congr app1 (write2 app1 s (ori_b0 bo) (ori_b1 bo)) _ _
        hlen' (fun i h1 h2 => hag i (by omega))]
      exact hBo
    have hOff' : read_ifd0_offset (write2 app1 s (ori_b0 bo) (ori_b1 bo))
        bo = .ok off0 := by
      unfold read_ifd0_offset at hOff ⊢
      rw [rustSlice_congr app1 (write2 app1 s (ori_b0 bo) (ori_b1 bo)) _ _
        hlen' (fun i h1 h2 => hag i (by omega))]
      exact hOff
    have hrt' : read_tag (write2 app1 s (ori_b0 bo) (ori_b1 bo)) off0
        ORIENTATION bo = .ok (some (s, 2)) :=
      read_tag_stable app1 (write2 app1 s (ori_b0 bo) (ori_b1 bo)) off0
        ORIENTATION bo s 2 hlen' hag (by omega) hrt
    refine ⟨?_, ?_, hlen', hag⟩
    · unfold clear_orientation
      simp only [hA, hBo, hOff, hrt]
      rw [if_pos (by omega), if_pos (by omega)]
    · have hval : sliceAt (write2 app1 s (ori_b0 bo) (ori_b1 bo)) s 2 =
          [ori_b0 bo, ori_b1 bo] :=
        sliceAt_two _ s _ _ (write2_getElem?_fst app1 s _ _ (by omega))
          (write2_getElem?_snd app1 s _ _ (by omega))
      have hdec1 : decode_u16 [ori_b0 bo, ori_b1 bo] bo = .ok 1 := by
        cases bo <;> rfl
      unfold get_orientation
      simp only [hA', hBo', hOff', hrt', hval, hdec1]
      rw [if_neg (by omega)]
  · intro h
    unfold clear_orientation
    simp only [hA, hBo, hOff, h]

/-- Witness for C4 at `demoJpeg` (big-endian, Orientation 6 stored at
region (28, 2) of the 86-byte APP1 segment). -/
theorem clear_orientation_roundtrip_witness :
    clear_orientation demoJpeg = .ok (write2 demoApp1 28 0 1) ∧
      get_orientation (write2 demoApp1 28 0 1) = .ok (some 1) ∧
      (write2 demoApp1 28 0 1).length = demoApp1.length ∧
      (∀ i, i < 28 ∨ 30 ≤ i → (write2 demoApp1 28 0 1)[i]? = demoApp1[i]?) := by
  have h := (clear_orientation_roundtrip demoJpeg demoApp1 .BigEndian 8
    (by decide) (by decide) (by decide)).1 28 (by decide) (by decide)
  exact h

/-- C10: `clear_orientation` is partial at its public interface — whenever
`get_app1` finds no EXIF APP1 segment, `clear_orientation` panics through
`unwrap` instead of returning a value or an error. -/
theorem clear_orientation_panics_without_app1 (jpeg : List Nat)
    (h : get_app1 jpeg = .ok none) : clear_orientation jpeg = .panic := by
  unfold clear_orientation
  rw [h]

/-- Witness for C10 at the concrete buffer `FF D8` (SOI only, no APP1). -/
theorem clear_orientation_panics_without_app1_witness :
    get_app1 [0xFF, 0xD8] = .ok none ∧
      clear_orientation [0xFF, 0xD8] = .panic :=
  ⟨by decide, clear_orientation_panics_without_app1 [0xFF, 0xD8] (by decide)⟩

/-- C3 (code bug): on truncated buffers the operations panic (Rust
out-of-bounds slice indexing, terminating the process) instead of
returning a reported error value as the specification requires.
`next_app0_index` panics on `FF D8 FF E0 00` (APP0 marker, truncated
length field); `get_app1` panics on a truncated APP1; `get_orientation`,
`get_date_time_original` and `clear_orientation` panic on a JPEG whose
APP1 segment is too short for the TIFF header. -/
theorem truncated_input_panics :
    next_app0_index [0xFF, 0xD8, 0xFF, 0xE0, 0x00] = .panic ∧
    get_app1 [0xFF, 0xE1, 0x00, 0xFF, 0x45] = .panic ∧
    get_orientation [0xFF, 0xD8, 0xFF, 0xE1, 0x00, 0x09, 0x45, 0x78, 0x69,
      0x66, 0x00, 0x00, 0x00] = .panic ∧
    get_date_time_original [0xFF, 0xD8, 0xFF, 0xE1, 0x00, 0x09, 0x45, 0x78,
      0x69, 0x66, 0x00, 0x00, 0x00] = .panic ∧
    clear_orientation [0xFF, 0xD8, 0xFF, 0xE1, 0x00, 0x09, 0x45, 0x78, 0x69,
      0x66, 0x00, 0x00, 0x00] = .panic := by
  decide

/-- C2 (counterexample): a buffer that does not start with `FF D8` but
contains a valid EXIF APP1 segment; `get_app1`, `get_orientation` and
`get_date_time_original` do not report `MalformedJpeg` — they scan the
buffer and succeed. -/
theorem no_soi_scan_proceeds :
    demoNoSoi.take 2 ≠ [0xFF, 0xD8] ∧
    get_app1 demoNoSoi = .ok (some demoApp1) ∧
    get_orientation demoNoSoi = .ok (some 6) ∧
    get_date_time_original demoNoSoi =
      .ok (some [0x32, 0x30, 0x31, 0x35, 0x3A, 0x30, 0x39, 0x3A, 0x32, 0x37,
        0x20, 0x31, 0x31, 0x3A, 0x34, 0x33, 0x3A, 0x31, 0x31]) := by
  decide

/-- C2 (amended): for every buffer of length at least 2 whose first two
bytes are not `FF D8`, `next_app0_index` reports the MalformedJpeg error;
the `get_app1`-dependent operations perform no SOI check at all (see
`no_soi_scan_proceeds`). -/
theorem next_app0_index_malformed (buf : List Nat) (h2 : 2 ≤ buf.length)
    (hso : buf.take 2 ≠ [0xFF, 0xD8]) :
    next_app0_index buf = .ok (.error soiErr) := by
  unfold next_app0_index
  rw [rustSlice_ok_intro buf 0 2 (by omega) h2,
    show (2 - 0 : Nat) = 2 from by omega, sliceAt_zero_take]
  simp only [if_neg hso]

/-- Witness for the amended C2 at the concrete buffer `00 00`. -/
theorem next_app0_index_malformed_witness :
    next_app0_index [0x00, 0x00] = .ok (.error soiErr) :=
  next_app0_index_malformed [0x00, 0x00] (by decide) (by decide)
